import Mathlib

/-!
Verification development for the LTC2946 hwmon driver
(drivers/hwmon/ltc2946.c).

The driver is embedded shallowly:

* the device register file is a map from register address to the byte
  block last written there (the i2c bus is modelled as a reliable store);
* the register codec (`write_uint24` / `read_uint24`,
  `write_uint12` / `read_uint12`) is translated byte for byte, with
  machine integers as `Nat` and the C `u8` buffer type expressed by
  masking each byte with `0xFF`;
* the sysfs show/set handlers are translated statement by statement;
  signed C `long` arithmetic becomes `Int` with `Int.tdiv`
  (C division truncates toward zero), the `(unsigned int)` cast becomes
  reduction modulo `2 ^ 32`, and the 32-bit unsigned addition
  `adin_r1 + adin_r2` wraps modulo `2 ^ 32` as in C;
* `kstrtol` is an external kernel routine; its outcome is modelled as an
  `Option Int` (with `none` for a parse failure), which is all the driver
  observes of it;
* `ltc2946_probe` is modelled over the outcomes of its external
  collaborators (allocation, `of_property_read_u32`, hwmon registration,
  and the bring-up i2c write).
-/

namespace LTC2946

/-- Linux macro clamp_val on an unsigned value with lower bound 0. -/
def clamp_val (v lo hi : Nat) : Nat := min (max v lo) hi

/-- Device register file: address to the byte block last written there. -/
def RegState : Type := Nat → List Nat

/-- Effect of i2c_smbus_write_i2c_block_data on the register file. -/
def write_block (addr : Nat) (bytes : List Nat) (st : RegState) : RegState :=
  fun a => if a = addr then bytes else st a

/-- Byte packing done by write_uint24: clamp to [0, 0xFFFFFF], then split
big-endian into three bytes. -/
def write_uint24_bytes (value : Nat) : List Nat :=
  let input := clamp_val value 0 0xFFFFFF
  [0xFF &&& (input >>> 16), 0xFF &&& (input >>> 8), 0xFF &&& input]

/-- Byte unpacking done by read_uint24: (bytes[0] << 16) | (bytes[1] << 8)
| bytes[2], each byte being a u8 (masked with 0xFF). -/
def read_uint24_bytes (bytes : List Nat) : Nat :=
  ((0xFF &&& bytes.getD 0 0) <<< 16) ||| ((0xFF &&& bytes.getD 1 0) <<< 8) |||
    (0xFF &&& bytes.getD 2 0)

/-- Byte packing done by write_uint12: clamp to [0, 0xFFF], then
bytes[0] = 0xFF & (input >> 4), bytes[1] = 0xF0 & (input << 4). -/
def write_uint12_bytes (value : Nat) : List Nat :=
  let input := clamp_val value 0 0xFFF
  [0xFF &&& (input >>> 4), 0xF0 &&& (input <<< 4)]

/-- Byte unpacking done by read_uint12:
0xFFF & ((0xFF0 & (bytes[0] << 4)) + (0xF & (bytes[1] >> 4))). -/
def read_uint12_bytes (bytes : List Nat) : Nat :=
  0xFFF &&& ((0xFF0 &&& ((0xFF &&& bytes.getD 0 0) <<< 4)) +
    (0xF &&& ((0xFF &&& bytes.getD 1 0) >>> 4)))

/-- write_uint24 as an update of the register file. -/
def write_uint24 (addr value : Nat) (st : RegState) : RegState :=
  write_block addr (write_uint24_bytes value) st

/-- read_uint24 from the register file. -/
def read_uint24 (addr : Nat) (st : RegState) : Nat :=
  read_uint24_bytes (st addr)

/-- write_uint12 as an update of the register file. -/
def write_uint12 (addr value : Nat) (st : RegState) : RegState :=
  write_block addr (write_uint12_bytes value) st

/-- read_uint12 from the register file. -/
def read_uint12 (addr : Nat) (st : RegState) : Nat :=
  read_uint12_bytes (st addr)

/-! Driver data model and conversion layer. -/

/-- Register addresses and scale constants from the driver header. -/
def REG_POWER_MAX : Nat := 0x08

def REG_POWER_MIN : Nat := 0x0B

def REG_POWER : Nat := 0x05

def POWER_VALUE_TO_NWATT : Nat := 31250

def REG_VOLTAGE_MAX : Nat := 0x2C

def REG_VOLTAGE_MIN : Nat := 0x2A

def REG_VOLTAGE : Nat := 0x28

def VOLTAGE_VALUE_TO_MICROVOLT : Nat := 500

def REG_SENSE_MAX : Nat := 0x16

def REG_SENSE_MIN : Nat := 0x18

def REG_SENSE : Nat := 0x14

def SENSE_RESISTANCE_MICROOHM_DEFAULT : Nat := 1000

def SENSE_VALUE_TO_NANOVOLT : Nat := 25000

/-- Per-device calibration state (struct ltc2946_data minus the bus
handle). The three fields are C u32 values. -/
structure ltc2946_data where
  sense_resistance : Nat
  adin_r1 : Nat
  adin_r2 : Nat
  deriving DecidableEq, Repr

/-- C cast of a signed long to unsigned int: reduction modulo 2^32
(Lean's Int emod is non-negative for a positive modulus, like the C
conversion). -/
def toU32 (i : Int) : Nat := (i % (4294967296 : Int)).toNat

/-- Value conversion in show_power_value: the decoded 24-bit raw value
times 31250 (nanowatts), divided by 1000 for export. All arithmetic is
C unsigned long, which cannot overflow here since raw <= 0xFFFFFF. -/
def show_power_value (addr : Nat) (st : RegState) : Nat :=
  (read_uint24 addr st * POWER_VALUE_TO_NWATT) / 1000

/-- Value conversion in show_voltage_value: decoded 12-bit raw value
times 500, divided by 1000, then divider compensation
output * (r1 + r2) / r2. The sum adin_r1 + adin_r2 is C u32 addition and
wraps modulo 2^32. -/
def show_voltage_value (data : ltc2946_data) (addr : Nat) (st : RegState) : Nat :=
  let output := read_uint12 addr st
  let output := output * VOLTAGE_VALUE_TO_MICROVOLT
  let output := output / 1000
  (output * ((data.adin_r1 + data.adin_r2) % 4294967296)) / data.adin_r2

/-- Value conversion in show_current_value: decoded 12-bit raw value
times 25000 (nanovolts across the sense resistor), divided by the sense
resistance in microohm to give milliamps. -/
def show_current_value (data : ltc2946_data) (addr : Nat) (st : RegState) : Nat :=
  (read_uint12 addr st * SENSE_VALUE_TO_NANOVOLT) / data.sense_resistance

/-- Signed conversion in set_power_value before the cast:
input *= 1000; input /= POWER_VALUE_TO_NWATT (C long division truncates
toward zero). -/
def power_input_raw (input : Int) : Int :=
  (input * 1000).tdiv 31250

/-- Signed conversion in set_voltage_value before the cast:
input /= 500; input /= 1000;
input = (input * adin_r2) / (adin_r1 + adin_r2). The multiplication and
division are C long arithmetic; the sum adin_r1 + adin_r2 is C u32
addition and wraps modulo 2^32. -/
def voltage_input_raw (data : ltc2946_data) (input : Int) : Int :=
  (((input.tdiv 500).tdiv 1000) * (data.adin_r2 : Int)).tdiv
    (((data.adin_r1 + data.adin_r2) % 4294967296 : Nat) : Int)

/-- Signed conversion in set_current_value before the cast:
input = input * sense_resistance; input = input / 25000. -/
def current_input_raw (data : ltc2946_data) (input : Int) : Int :=
  (input * (data.sense_resistance : Int)).tdiv 25000

/-- Error number EINVAL; the handlers return -EINVAL on parse failure. -/
def EINVAL : Int := 22

/-- Result and register-file effect of set_power_value. The parsed
payload is the outcome of the external kstrtol call: none on parse
failure. On parse failure the handler returns -EINVAL before any bus
write. The bus is modelled as a reliable store, so a performed write
returns success (the byte count). -/
def set_power_value (addr : Nat) (parsed : Option Int) (st : RegState) :
    Except Int Unit × RegState :=
  match parsed with
  | none => (Except.error (-EINVAL), st)
  | some input =>
      (Except.ok (), write_uint24 addr (toU32 (power_input_raw input)) st)

/-- Result and register-file effect of set_voltage_value. -/
def set_voltage_value (data : ltc2946_data) (addr : Nat) (parsed : Option Int)
    (st : RegState) : Except Int Unit × RegState :=
  match parsed with
  | none => (Except.error (-EINVAL), st)
  | some input =>
      (Except.ok (), write_uint12 addr (toU32 (voltage_input_raw data input)) st)

/-- Result and register-file effect of set_current_value. -/
def set_current_value (data : ltc2946_data) (addr : Nat) (parsed : Option Int)
    (st : RegState) : Except Int Unit × RegState :=
  match parsed with
  | none => (Except.error (-EINVAL), st)
  | some input =>
      (Except.ok (), write_uint12 addr (toU32 (current_input_raw data input)) st)

/-- The six writable attribute handlers, at their bound registers. -/
def set_power_max (parsed : Option Int) (st : RegState) :
    Except Int Unit × RegState :=
  set_power_value REG_POWER_MAX parsed st

def set_power_min (parsed : Option Int) (st : RegState) :
    Except Int Unit × RegState :=
  set_power_value REG_POWER_MIN parsed st

def set_voltage_max (data : ltc2946_data) (parsed : Option Int) (st : RegState) :
    Except Int Unit × RegState :=
  set_voltage_value data REG_VOLTAGE_MAX parsed st

def set_voltage_min (data : ltc2946_data) (parsed : Option Int) (st : RegState) :
    Except Int Unit × RegState :=
  set_voltage_value data REG_VOLTAGE_MIN parsed st

def set_current_max (data : ltc2946_data) (parsed : Option Int) (st : RegState) :
    Except Int Unit × RegState :=
  set_current_value data REG_SENSE_MAX parsed st

def set_current_min (data : ltc2946_data) (parsed : Option Int) (st : RegState) :
    Except Int Unit × RegState :=
  set_current_value data REG_SENSE_MIN parsed st

/-- The three read-only show handlers at their bound registers. -/
def show_power_input (st : RegState) : Nat := show_power_value REG_POWER st

def show_voltage_input (data : ltc2946_data) (st : RegState) : Nat :=
  show_voltage_value data REG_VOLTAGE st

def show_current_input (data : ltc2946_data) (st : RegState) : Nat :=
  show_current_value data REG_SENSE st

/-! Probe. -/

/-- Outcome of the three of_property_read_u32 calls in ltc2946_probe:
for each key, some v when the device tree supplies the u32 value v,
none when the property is absent (of_property_read_u32 fails and the
driver falls back to the default). -/
structure OfProperties where
  sense_resistance_microohm : Option Nat
  adin_div_r1 : Option Nat
  adin_div_r2 : Option Nat
  deriving DecidableEq, Repr

/-- Error number ENOMEM, returned when devm_kzalloc fails. -/
def ENOMEM : Int := 12

/-- Calibration resolution in ltc2946_probe: each key falls back to its
default when of_property_read_u32 fails. -/
def resolve_calibration (cfg : OfProperties) : ltc2946_data :=
  { sense_resistance :=
      cfg.sense_resistance_microohm.getD SENSE_RESISTANCE_MICROOHM_DEFAULT
    adin_r1 := cfg.adin_div_r1.getD 1
    adin_r2 := cfg.adin_div_r2.getD 1000 }

/-- ltc2946_probe over the outcomes of its collaborators: devm_kzalloc
(allocOk), the three of_property_read_u32 calls (cfg),
devm_hwmon_device_register_with_groups (hwmonResult), and the return
value of the bring-up CTRLA write (bringupResult, which the code
ignores; the write itself lands on the bus only when it succeeds).
Returns the probe result and the register file after the CTRLA write. -/
def ltc2946_probe (allocOk : Bool) (cfg : OfProperties)
    (hwmonResult : Except Int Unit) (bringupResult : Int) (st : RegState) :
    Except Int ltc2946_data × RegState :=
  if allocOk = false then (Except.error (-ENOMEM), st)
  else
    let data := resolve_calibration cfg
    let st := if 0 ≤ bringupResult then write_block 0 [0x10] st else st
    match hwmonResult with
    | Except.error e => (Except.error e, st)
    | Except.ok _ => (Except.ok data, st)

/-- Modelled from the spec: the voltage write inverse exactly as stated in
spec section 4.3 (a formula the code does not contain) — divider
compensation (input_mv * r2) / (r1 + r2) applied first, then division by
500, with the /1000 scaling of the forward path removed. This definition
follows the spec's words and exists only to be compared with the code's
voltage_input_raw. -/
def spec_voltage_inverse_raw (input_mv : Int) (r1 r2 : Nat) : Int :=
  ((input_mv * (r2 : Int)).tdiv ((r1 : Int) + (r2 : Int))).tdiv 500

/-! Bitwise helper lemmas for the codec. -/

/-- Oring a left-shifted value with a value below the shift width is
addition. -/
theorem shiftLeft_lor_eq_add (c b k : Nat) (hb : b < 2 ^ k) :
    (c <<< k) ||| b = c <<< k + b := by
  apply Nat.eq_of_testBit_eq
  intro i
  rw [Nat.testBit_lor]
  rcases Nat.lt_or_ge i k with h | h
  · have hge : ¬ (i ≥ k) := Nat.not_le_of_gt h
    have h1 : (c <<< k).testBit i = false := by
      rw [Nat.testBit_shiftLeft]; simp [hge]
    have h2 : (c <<< k + b) % 2 ^ k = b := by
      rw [Nat.shiftLeft_eq, Nat.mul_comm c, Nat.mul_add_mod]
      exact Nat.mod_eq_of_lt hb
    have h3 : (c <<< k + b).testBit i = b.testBit i := by
      have h4 := Nat.testBit_mod_two_pow (c <<< k + b) k i
      rw [h2, decide_eq_true h, Bool.true_and] at h4
      exact h4.symm
    rw [h1, h3, Bool.false_or]
  · have hb' : b.testBit i = false :=
      Nat.testBit_lt_two_pow
        (lt_of_lt_of_le hb (Nat.pow_le_pow_right (by norm_num) h))
    have h5 : (c <<< k + b) >>> k = c := by
      rw [Nat.shiftLeft_eq, Nat.shiftRight_eq_div_pow, Nat.mul_comm c,
        Nat.mul_add_div (Nat.two_pow_pos k), Nat.div_eq_of_lt hb, Nat.add_zero]
    have h6 : (c <<< k + b).testBit i = c.testBit (i - k) := by
      have h7 := Nat.testBit_shiftRight (i := k) (j := i - k) (c <<< k + b)
      rw [h5, Nat.add_sub_cancel' h] at h7
      exact h7.symm
    rw [h6, hb', Bool.or_false, Nat.testBit_shiftLeft]
    simp [h]

/-- Anding two values shifted by the same amount shifts the and. -/
theorem and_shiftLeft_distrib (a b k : Nat) :
    (a <<< k) &&& (b <<< k) = (a &&& b) <<< k := by
  apply Nat.eq_of_testBit_eq
  intro i
  rw [Nat.testBit_land, Nat.testBit_shiftLeft, Nat.testBit_shiftLeft,
    Nat.testBit_shiftLeft, Nat.testBit_land]
  rcases Nat.lt_or_ge i k with h | h
  · have hge : ¬ (i ≥ k) := Nat.not_le_of_gt h
    simp [hge]
  · simp [h]

/-- Anding with an all-ones mask is reduction modulo the power of two. -/
theorem mask_and_eq_mod (x n : Nat) : (2 ^ n - 1) &&& x = x % 2 ^ n := by
  rw [Nat.and_comm]
  exact Nat.and_pow_two_sub_one_eq_mod x n

/-- Codec round trip, 24-bit: decoding the encoded bytes recovers the
clamped value. -/
theorem read_write_uint24_aux (input : Nat) (hlt : input < 2 ^ 24) :
    read_uint24_bytes
      [0xFF &&& (input >>> 16), 0xFF &&& (input >>> 8), 0xFF &&& input] =
      input := by
  have hmask : ∀ x : Nat, 0xFF &&& x = x % 2 ^ 8 := by
    intro x
    have h := mask_and_eq_mod x 8
    norm_num at h ⊢
    exact h
  rw [read_uint24_bytes]
  simp only [List.getD_cons_zero, List.getD_cons_succ]
  simp only [hmask, Nat.shiftRight_eq_div_pow]
  -- the three bytes, as arithmetic
  have hb0 : input / 2 ^ 16 % 2 ^ 8 % 2 ^ 8 = input / 2 ^ 16 := by omega
  have hb1 : input / 2 ^ 8 % 2 ^ 8 % 2 ^ 8 = input / 2 ^ 8 % 2 ^ 8 := by omega
  have hb2 : input % 2 ^ 8 % 2 ^ 8 = input % 2 ^ 8 := by omega
  rw [hb0, hb1, hb2]
  rw [shiftLeft_lor_eq_add (input / 2 ^ 16) ((input / 2 ^ 8 % 2 ^ 8) <<< 8) 16
    (by rw [Nat.shiftLeft_eq]; omega)]
  have hstep : (input / 2 ^ 16) <<< 16 + (input / 2 ^ 8 % 2 ^ 8) <<< 8 =
      ((input / 2 ^ 16) <<< 8 + input / 2 ^ 8 % 2 ^ 8) <<< 8 := by
    simp only [Nat.shiftLeft_eq]
    ring
  rw [hstep]
  rw [shiftLeft_lor_eq_add ((input / 2 ^ 16) <<< 8 + input / 2 ^ 8 % 2 ^ 8)
    (input % 2 ^ 8) 8 (by omega)]
  simp only [Nat.shiftLeft_eq]
  omega

/-- Codec round trip, 24-bit: decoding the encoded bytes recovers the
clamped value. -/
theorem read_write_uint24_bytes (v : Nat) :
    read_uint24_bytes (write_uint24_bytes v) = clamp_val v 0 0xFFFFFF := by
  have hle : clamp_val v 0 0xFFFFFF ≤ 0xFFFFFF := Nat.min_le_right _ _
  simp only [write_uint24_bytes]
  exact read_write_uint24_aux _ (by omega)

/-- Codec round trip for the 12-bit bytes at a bounded input. -/
theorem read_write_uint12_aux (input : Nat) (hlt : input < 2 ^ 12) :
    read_uint12_bytes [0xFF &&& (input >>> 4), 0xF0 &&& (input <<< 4)] =
      input := by
  have hmask8 : ∀ x : Nat, 0xFF &&& x = x % 2 ^ 8 := by
    intro x
    have h := mask_and_eq_mod x 8
    norm_num at h ⊢
    exact h
  have hmask4 : ∀ x : Nat, 0xF &&& x = x % 2 ^ 4 := by
    intro x
    have h := mask_and_eq_mod x 4
    norm_num at h ⊢
    exact h
  have hmask12 : ∀ x : Nat, 0xFFF &&& x = x % 2 ^ 12 := by
    intro x
    have h := mask_and_eq_mod x 12
    norm_num at h ⊢
    exact h
  rw [read_uint12_bytes]
  simp only [List.getD_cons_zero, List.getD_cons_succ]
  -- byte 0 of the encoding
  have hb0 : 0xFF &&& (input >>> 4) = input / 2 ^ 4 := by
    rw [hmask8, Nat.shiftRight_eq_div_pow]
    omega
  -- byte 1 of the encoding
  have hb1 : 0xF0 &&& (input <<< 4) = (input % 2 ^ 4) <<< 4 := by
    have h240 : (0xF0 : Nat) = 0xF <<< 4 := by decide
    rw [h240, Nat.and_comm, and_shiftLeft_distrib]
    have hx : input &&& 0xF = input % 2 ^ 4 := by
      rw [Nat.and_comm]
      have h := mask_and_eq_mod input 4
      norm_num at h ⊢
      exact h
    rw [hx]
  rw [hb0, hb1]
  -- the u8 masks on the stored bytes are the identity
  have hu0 : 0xFF &&& (input / 2 ^ 4) = input / 2 ^ 4 := by
    rw [hmask8]; omega
  have hu1 : 0xFF &&& ((input % 2 ^ 4) <<< 4) = (input % 2 ^ 4) <<< 4 := by
    rw [hmask8, Nat.shiftLeft_eq]; omega
  rw [hu0, hu1]
  have hhi : 0xFF0 &&& ((input / 2 ^ 4) <<< 4) = (input / 2 ^ 4) <<< 4 := by
    have h4080 : (0xFF0 : Nat) = 0xFF <<< 4 := by decide
    rw [h4080, Nat.and_comm, and_shiftLeft_distrib]
    have hx : input / 2 ^ 4 &&& 0xFF = input / 2 ^ 4 := by
      rw [Nat.and_comm, hmask8]; omega
    rw [hx]
  have hlo : 0xF &&& (((input % 2 ^ 4) <<< 4) >>> 4) = input % 2 ^ 4 := by
    rw [Nat.shiftLeft_eq, Nat.shiftRight_eq_div_pow, hmask4]
    omega
  rw [hhi, hlo, hmask12, Nat.shiftLeft_eq]
  omega

/-- Codec round trip, 12-bit: decoding the encoded bytes recovers the
clamped value. -/
theorem read_write_uint12_bytes (v : Nat) :
    read_uint12_bytes (write_uint12_bytes v) = clamp_val v 0 0xFFF := by
  have hle : clamp_val v 0 0xFFF ≤ 0xFFF := Nat.min_le_right _ _
  simp only [write_uint12_bytes]
  exact read_write_uint12_aux _ (by omega)

/-! State-level codec lemmas and saturation lemmas. -/

/-- Reading back a 24-bit register just written yields the clamped value. -/
theorem read_uint24_write_uint24 (addr v : Nat) (st : RegState) :
    read_uint24 addr (write_uint24 addr v st) = clamp_val v 0 0xFFFFFF := by
  show read_uint24_bytes (if addr = addr then write_uint24_bytes v else st addr) =
    clamp_val v 0 0xFFFFFF
  rw [if_pos rfl, read_write_uint24_bytes]

/-- Reading back a 12-bit register just written yields the clamped value. -/
theorem read_uint12_write_uint12 (addr v : Nat) (st : RegState) :
    read_uint12 addr (write_uint12 addr v st) = clamp_val v 0 0xFFF := by
  show read_uint12_bytes (if addr = addr then write_uint12_bytes v else st addr) =
    clamp_val v 0 0xFFF
  rw [if_pos rfl, read_write_uint12_bytes]

/-- The clamp is the identity below the upper bound. -/
theorem clamp_val_of_le (v hi : Nat) (h : v ≤ hi) : clamp_val v 0 hi = v := by
  simp only [clamp_val]
  omega

/-- The clamp saturates at the upper bound. -/
theorem clamp_val_of_ge (v hi : Nat) (h : hi ≤ v) : clamp_val v 0 hi = hi := by
  simp only [clamp_val]
  omega

/-- A saturated 24-bit encode writes the all-ones field. -/
theorem write_uint24_bytes_saturated (v : Nat) (h : 0xFFFFFF ≤ v) :
    write_uint24_bytes v = [0xFF, 0xFF, 0xFF] := by
  simp only [write_uint24_bytes, clamp_val_of_ge v 0xFFFFFF h]
  decide

/-- A saturated 12-bit encode writes the all-ones field (0xFFF packed as
bytes 0xFF, 0xF0). -/
theorem write_uint12_bytes_saturated (v : Nat) (h : 0xFFF ≤ v) :
    write_uint12_bytes v = [0xFF, 0xF0] := by
  simp only [write_uint12_bytes, clamp_val_of_ge v 0xFFF h]
  decide

/-! Claim theorems. -/

/-- C3 (confirmed): for every unsigned integer v, decoding the bytes
produced by the corresponding encoder returns v clamped to the field
width — decode24(encode24 v) = clamp(v, 0, 0xFFFFFF) and
decode12(encode12 v) = clamp(v, 0, 0xFFF); encoding never fails and
out-of-range inputs saturate. -/
theorem codec_roundtrip_clamp (v : Nat) :
    read_uint24_bytes (write_uint24_bytes v) = clamp_val v 0 0xFFFFFF ∧
    read_uint12_bytes (write_uint12_bytes v) = clamp_val v 0 0xFFF :=
  ⟨read_write_uint24_bytes v, read_write_uint12_bytes v⟩

/-- C4 (confirmed): for every 12-bit raw register value and strictly
positive sense resistance, a current attribute read outputs
(raw * 25000) / sense_resistance_microohm with truncating division. -/
theorem current_read_conversion (raw sr r1 r2 addr : Nat) (st : RegState)
    (hraw : raw ≤ 0xFFF) (hsr : 0 < sr) :
    show_current_value ⟨sr, r1, r2⟩ addr (write_uint12 addr raw st) =
      raw * 25000 / sr := by
  rw [show_current_value, read_uint12_write_uint12, clamp_val_of_le raw 0xFFF hraw]
  rfl

/-- Witness for C4 at the spec's literal input: sense resistance 1000,
raw 0x3E8 (1000); the output is exactly 25000. -/
theorem current_read_conversion_witness :
    (1000 : Nat) ≤ 0xFFF ∧ (0 : Nat) < 1000 ∧
    show_current_value ⟨1000, 1, 1000⟩ REG_SENSE
      (write_uint12 REG_SENSE 1000 (fun _ => [])) = 25000 :=
  ⟨by decide, by decide,
    (current_read_conversion 1000 1000 1 1000 REG_SENSE (fun _ => [])
      (by decide) (by decide)).trans (by decide)⟩

/-- C5 counterexample: with strictly positive calibration
r1 = r2 = 2^31 and raw = 256, the code outputs 0 (the u32 sum r1 + r2
wraps to 0), while the claim's formula ((raw*500)/1000)*(r1+r2)/r2
gives 256; so the claim fails as stated over all strictly positive
u32 calibrations. -/
theorem voltage_read_conversion_cex :
    show_voltage_value ⟨1000, 2147483648, 2147483648⟩ REG_VOLTAGE
        (write_uint12 REG_VOLTAGE 256 (fun _ => [])) = 0 ∧
    256 * 500 / 1000 * (2147483648 + 2147483648) / 2147483648 = 256 ∧
    (0 : Nat) ≠ 256 :=
  ⟨by decide, by decide, by decide⟩

/-- C5 (amended): for every 12-bit raw value and strictly positive
calibration whose u32 sum r1 + r2 does not overflow, a voltage read
outputs ((raw * 500) / 1000) * (r1 + r2) / r2 with truncating division
in this order. -/
theorem voltage_read_conversion_amended (raw sr r1 r2 addr : Nat) (st : RegState)
    (hraw : raw ≤ 0xFFF) (h1 : 0 < r1) (h2 : 0 < r2)
    (h3 : r1 + r2 < 4294967296) :
    show_voltage_value ⟨sr, r1, r2⟩ addr (write_uint12 addr raw st) =
      raw * 500 / 1000 * (r1 + r2) / r2 := by
  simp only [show_voltage_value]
  rw [read_uint12_write_uint12, clamp_val_of_le raw 0xFFF hraw]
  show raw * VOLTAGE_VALUE_TO_MICROVOLT / 1000 * ((r1 + r2) % 4294967296) / r2 = _
  rw [Nat.mod_eq_of_lt h3]
  rfl

/-- Witness for C5 at the spec's literal input: r1 = 1, r2 = 1,
raw = 0x100 (256); the output is exactly 256. -/
theorem voltage_read_conversion_amended_witness :
    (256 : Nat) ≤ 0xFFF ∧ (0 : Nat) < 1 ∧ (0 : Nat) < 1 ∧
    (1 + 1 : Nat) < 4294967296 ∧
    show_voltage_value ⟨1000, 1, 1⟩ REG_VOLTAGE
      (write_uint12 REG_VOLTAGE 256 (fun _ => [])) = 256 :=
  ⟨by decide, by decide, by decide, by decide,
    (voltage_read_conversion_amended 256 1000 1 1 REG_VOLTAGE (fun _ => [])
      (by decide) (by decide) (by decide) (by decide)).trans (by decide)⟩

/-- C6 (confirmed): for every write to any of the six writable
attributes, a payload that fails to parse as a base-10 integer makes the
handler return -EINVAL and leaves the register file unchanged (no bus
write is issued). -/
theorem parse_failure_no_write (data : ltc2946_data) (st : RegState) :
    set_power_max none st = (Except.error (-EINVAL), st) ∧
    set_power_min none st = (Except.error (-EINVAL), st) ∧
    set_voltage_max data none st = (Except.error (-EINVAL), st) ∧
    set_voltage_min data none st = (Except.error (-EINVAL), st) ∧
    set_current_max data none st = (Except.error (-EINVAL), st) ∧
    set_current_min data none st = (Except.error (-EINVAL), st) :=
  ⟨rfl, rfl, rfl, rfl, rfl, rfl⟩

/-- C1 counterexample: for parsed input 2000000 with r1 = 1, r2 = 1, the
raw value the code passes to the 12-bit encoder is 2 — the code divides
by 500, then again by 1000, and applies divider compensation last —
while the spec's inverse ((input_mv * r2) / (r1 + r2)) / 500 gives 2000.
So the claim fails as stated. -/
theorem set_voltage_write_order_cex :
    voltage_input_raw ⟨1000, 1, 1⟩ 2000000 = 2 ∧
    spec_voltage_inverse_raw 2000000 1 1 = 2000 ∧
    toU32 (voltage_input_raw ⟨1000, 1, 1⟩ 2000000) ≠
      toU32 (spec_voltage_inverse_raw 2000000 1 1) :=
  ⟨by decide, by decide, by decide⟩

/-- C1 (amended): for every voltage write with parsed input and
calibration (r1, r2) whose u32 sum does not overflow, the raw value
passed to the 12-bit encoder is
((input / 500) / 1000) * r2 / (r1 + r2) (truncating division): the code
divides by 500, then by 1000 (the /1000 scaling of the forward path is
retained, not removed), and applies divider compensation last. -/
theorem set_voltage_write_order_amended (input : Int) (sr r1 r2 addr : Nat)
    (st : RegState) (h1 : 0 < r1) (h2 : 0 < r2)
    (h3 : r1 + r2 < 4294967296) :
    set_voltage_value ⟨sr, r1, r2⟩ addr (some input) st =
      (Except.ok (),
        write_uint12 addr
          (toU32 (((input.tdiv 500).tdiv 1000 * (r2 : Int)).tdiv
            ((r1 : Int) + (r2 : Int)))) st) := by
  show (Except.ok (),
      write_uint12 addr (toU32 (voltage_input_raw ⟨sr, r1, r2⟩ input)) st) = _
  have hv : voltage_input_raw ⟨sr, r1, r2⟩ input =
      ((input.tdiv 500).tdiv 1000 * (r2 : Int)).tdiv ((r1 : Int) + (r2 : Int)) := by
    simp only [voltage_input_raw]
    rw [Nat.mod_eq_of_lt h3]
    push_cast
    rfl
  rw [hv]

/-- Witness for C1 amended at input 2000000, r1 = 1, r2 = 1000. -/
theorem set_voltage_write_order_amended_witness :
    (0 : Nat) < 1 ∧ (0 : Nat) < 1000 ∧ (1 + 1000 : Nat) < 4294967296 ∧
    set_voltage_value ⟨1000, 1, 1000⟩ REG_VOLTAGE_MAX (some 2000000)
        (fun _ => []) =
      (Except.ok (),
        write_uint12 REG_VOLTAGE_MAX
          (toU32 ((((2000000 : Int).tdiv 500).tdiv 1000 * ((1000 : Nat) : Int)).tdiv
            (((1 : Nat) : Int) + ((1000 : Nat) : Int)))) (fun _ => [])) :=
  ⟨by decide, by decide, by decide,
    set_voltage_write_order_amended 2000000 1000 1 1000 REG_VOLTAGE_MAX
      (fun _ => []) (by decide) (by decide) (by decide)⟩

/-- C2 counterexample: for the non-negative input 524288000, the raw
conversion gives 16777216 = 0x1000000, which the 24-bit encoder clamps
to 0xFFFFFF, so reading back yields 524287968 while the claim's formula
floor(floor(input*1000/31250)*31250/1000) gives 524288000; the register
content also differs from the raw value the conversion produced. -/
theorem power_roundtrip_formula_cex :
    show_power_value REG_POWER_MAX
        ((set_power_value REG_POWER_MAX (some 524288000) (fun _ => [])).2) =
      524287968 ∧
    524288000 * 1000 / 31250 * 31250 / 1000 = 524288000 ∧
    (524287968 : Nat) ≠ 524288000 :=
  ⟨by decide, by decide, by decide⟩

/-- C2 (amended): for every non-negative integer input whose converted
raw value floor(input*1000/31250) fits the 24-bit field, writing a power
attribute and reading it back yields
floor(floor(input*1000/31250) * 31250 / 1000), the register content
between write and read being exactly the raw value the write produced. -/
theorem power_roundtrip_amended (input : Nat) (addr : Nat) (st : RegState)
    (h : input * 1000 / 31250 ≤ 0xFFFFFF) :
    (set_power_value addr (some (input : Int)) st).1 = Except.ok () ∧
    read_uint24 addr (set_power_value addr (some (input : Int)) st).2 =
      input * 1000 / 31250 ∧
    show_power_value addr (set_power_value addr (some (input : Int)) st).2 =
      input * 1000 / 31250 * 31250 / 1000 := by
  have hraw : power_input_raw (input : Int) =
      ((input * 1000 / 31250 : Nat) : Int) := rfl
  have hcast : toU32 (power_input_raw (input : Int)) = input * 1000 / 31250 := by
    rw [hraw]
    simp only [toU32]
    omega
  refine ⟨rfl, ?_, ?_⟩
  · show read_uint24 addr
      (write_uint24 addr (toU32 (power_input_raw (input : Int))) st) = _
    rw [read_uint24_write_uint24, hcast, clamp_val_of_le _ _ h]
  · show show_power_value addr
      (write_uint24 addr (toU32 (power_input_raw (input : Int))) st) = _
    rw [show_power_value, read_uint24_write_uint24, hcast, clamp_val_of_le _ _ h]
    rfl

/-- Witness for C2 amended at input 1000 (raw 32, read-back 1000). -/
theorem power_roundtrip_amended_witness :
    1000 * 1000 / 31250 ≤ 0xFFFFFF ∧
    ((set_power_value REG_POWER_MAX (some ((1000 : Nat) : Int))
        (fun _ => [])).1 = Except.ok () ∧
      read_uint24 REG_POWER_MAX
        (set_power_value REG_POWER_MAX (some ((1000 : Nat) : Int))
          (fun _ => [])).2 = 1000 * 1000 / 31250 ∧
      show_power_value REG_POWER_MAX
        (set_power_value REG_POWER_MAX (some ((1000 : Nat) : Int))
          (fun _ => [])).2 = 1000 * 1000 / 31250 * 31250 / 1000) :=
  ⟨by decide,
    power_roundtrip_amended 1000 REG_POWER_MAX (fun _ => []) (by decide)⟩

/-- C7 counterexample: a device tree supplying divider_r2 = 0 attaches
successfully and yields a calibration whose divider_r2 is 0, refuting
the claim that every successful attach produces strictly positive
calibration values regardless of the supplied u32 values. -/
theorem calibration_positive_cex :
    (resolve_calibration ⟨some 1000, some 1, some 0⟩).adin_r2 = 0 ∧
    (ltc2946_probe true ⟨some 1000, some 1, some 0⟩ (Except.ok ()) 0
        (fun _ => [])).1 =
      Except.ok (resolve_calibration ⟨some 1000, some 1, some 0⟩) ∧
    ¬ (0 < (resolve_calibration ⟨some 1000, some 1, some 0⟩).adin_r2) :=
  ⟨rfl, rfl, by decide⟩

/-- C7 (amended): provided every calibration key the configuration does
supply carries a strictly positive value, the resolved calibration has
all three fields strictly positive (absent keys fall back to the
strictly positive defaults 1000, 1, 1000). -/
theorem calibration_positive_amended (cfg : OfProperties)
    (hs : ∀ v, cfg.sense_resistance_microohm = some v → 0 < v)
    (h1 : ∀ v, cfg.adin_div_r1 = some v → 0 < v)
    (h2 : ∀ v, cfg.adin_div_r2 = some v → 0 < v) :
    0 < (resolve_calibration cfg).sense_resistance ∧
    0 < (resolve_calibration cfg).adin_r1 ∧
    0 < (resolve_calibration cfg).adin_r2 := by
  obtain ⟨s, r1, r2⟩ := cfg
  refine ⟨?_, ?_, ?_⟩
  · cases s with
    | none => show (0 : Nat) < 1000; decide
    | some v => exact hs v rfl
  · cases r1 with
    | none => show (0 : Nat) < 1; decide
    | some v => exact h1 v rfl
  · cases r2 with
    | none => show (0 : Nat) < 1000; decide
    | some v => exact h2 v rfl

/-- Witness for C7 amended at the empty configuration. -/
theorem calibration_positive_amended_witness :
    0 < (resolve_calibration ⟨none, none, none⟩).sense_resistance ∧
    0 < (resolve_calibration ⟨none, none, none⟩).adin_r1 ∧
    0 < (resolve_calibration ⟨none, none, none⟩).adin_r2 :=
  calibration_positive_amended ⟨none, none, none⟩
    (fun v h => Option.noConfusion h) (fun v h => Option.noConfusion h)
    (fun v h => Option.noConfusion h)

/-- C8 (confirmed): every calibration key absent from the configuration
resolves to its documented default (sense 1000, r1 1, r2 1000), and the
all-absent configuration resolves to exactly the calibration
(1000, 1, 1000). -/
theorem calibration_defaults (cfg : OfProperties) :
    (cfg.sense_resistance_microohm = none →
      (resolve_calibration cfg).sense_resistance = 1000) ∧
    (cfg.adin_div_r1 = none → (resolve_calibration cfg).adin_r1 = 1) ∧
    (cfg.adin_div_r2 = none → (resolve_calibration cfg).adin_r2 = 1000) ∧
    (cfg = ⟨none, none, none⟩ → resolve_calibration cfg = ⟨1000, 1, 1000⟩) := by
  obtain ⟨s, r1, r2⟩ := cfg
  refine ⟨?_, ?_, ?_, ?_⟩
  · cases s with
    | none => intro h; rfl
    | some v => intro h; exact Option.noConfusion h
  · cases r1 with
    | none => intro h; rfl
    | some v => intro h; exact Option.noConfusion h
  · cases r2 with
    | none => intro h; rfl
    | some v => intro h; exact Option.noConfusion h
  · intro h
    rw [h]
    rfl

/-- Witness for C8 at the all-absent configuration. -/
theorem calibration_defaults_witness :
    resolve_calibration ⟨none, none, none⟩ = ⟨1000, 1, 1000⟩ :=
  (calibration_defaults ⟨none, none, none⟩).2.2.2 rfl

/-- C9 (confirmed): the probe result does not depend on the return value
of the bring-up CTRLA write (the code discards it), and when allocation
and hwmon registration succeed the probe returns success whatever that
bring-up result is. -/
theorem probe_ignores_bringup_result (allocOk : Bool) (cfg : OfProperties)
    (hwmonResult : Except Int Unit) (e1 e2 : Int) (st : RegState) :
    (ltc2946_probe allocOk cfg hwmonResult e1 st).1 =
      (ltc2946_probe allocOk cfg hwmonResult e2 st).1 ∧
    ∀ e : Int, (ltc2946_probe true cfg (Except.ok ()) e st).1 =
      Except.ok (resolve_calibration cfg) := by
  constructor
  · cases allocOk with
    | false => rfl
    | true => cases hwmonResult with
      | error e => rfl
      | ok u => rfl
  · intro e
    rfl

/-- C10 counterexample: the parsed power input -134217728000 converts to
the negative raw value -2^32, whose unsigned cast is 0, so the write
stores 0 in the register — not the field maximum 0xFFFFFF — refuting
the claim for arbitrarily negative converted raw values. -/
theorem negative_write_saturates_cex :
    power_input_raw (-134217728000) < 0 ∧
    (set_power_value REG_POWER_MAX (some (-134217728000)) (fun _ => [])).1 =
      Except.ok () ∧
    read_uint24 REG_POWER_MAX
      ((set_power_value REG_POWER_MAX (some (-134217728000))
        (fun _ => [])).2) = 0 ∧
    (0 : Nat) ≠ 0xFFFFFF :=
  ⟨by decide, rfl, by decide, by decide⟩

/-- C10 (amended): for every successfully parsed write input whose
converted raw value is negative with magnitude at most 2^32 minus the
field maximum, the signed-to-unsigned cast yields 2^32 minus the
magnitude (at least the field maximum), so the saturating clamp writes
the field maximum — 0xFFFFFF for the 24-bit power field, 0xFFF for the
12-bit voltage and current fields — and the write reports success. -/
theorem negative_write_saturates_amended (input_p input_v input_c : Int)
    (d : ltc2946_data) (addr : Nat) (st : RegState)
    (hp1 : power_input_raw input_p < 0)
    (hp2 : (0xFFFFFF : Int) - 4294967296 ≤ power_input_raw input_p)
    (hv1 : voltage_input_raw d input_v < 0)
    (hv2 : (0xFFF : Int) - 4294967296 ≤ voltage_input_raw d input_v)
    (hc1 : current_input_raw d input_c < 0)
    (hc2 : (0xFFF : Int) - 4294967296 ≤ current_input_raw d input_c) :
    4294967296 - (power_input_raw input_p).natAbs ≤
      toU32 (power_input_raw input_p) ∧
    set_power_value addr (some input_p) st =
      (Except.ok (), write_block addr [0xFF, 0xFF, 0xFF] st) ∧
    set_voltage_value d addr (some input_v) st =
      (Except.ok (), write_block addr [0xFF, 0xF0] st) ∧
    set_current_value d addr (some input_c) st =
      (Except.ok (), write_block addr [0xFF, 0xF0] st) := by
  have hp : 0xFFFFFF ≤ toU32 (power_input_raw input_p) := by
    simp only [toU32]
    omega
  have hv : 0xFFF ≤ toU32 (voltage_input_raw d input_v) := by
    simp only [toU32]
    omega
  have hc : 0xFFF ≤ toU32 (current_input_raw d input_c) := by
    simp only [toU32]
    omega
  refine ⟨?_, ?_, ?_, ?_⟩
  · simp only [toU32]
    omega
  · show (Except.ok (),
        write_uint24 addr (toU32 (power_input_raw input_p)) st) = _
    rw [write_uint24, write_uint24_bytes_saturated _ hp]
  · show (Except.ok (),
        write_uint12 addr (toU32 (voltage_input_raw d input_v)) st) = _
    rw [write_uint12, write_uint12_bytes_saturated _ hv]
  · show (Except.ok (),
        write_uint12 addr (toU32 (current_input_raw d input_c)) st) = _
    rw [write_uint12, write_uint12_bytes_saturated _ hc]

/-- Witness for C10 amended: power input -32 (raw -1), voltage input
-1000000 with r1 = r2 = 1 (raw -1), current input -25000 with sense
resistance 1000 (raw -1000); each writes the saturated field. -/
theorem negative_write_saturates_amended_witness :
    power_input_raw (-32) < 0 ∧
    voltage_input_raw ⟨1000, 1, 1⟩ (-1000000) < 0 ∧
    current_input_raw ⟨1000, 1, 1⟩ (-25000) < 0 ∧
    (4294967296 - (power_input_raw (-32)).natAbs ≤
        toU32 (power_input_raw (-32)) ∧
      set_power_value REG_POWER_MAX (some (-32)) (fun _ => []) =
        (Except.ok (),
          write_block REG_POWER_MAX [0xFF, 0xFF, 0xFF] (fun _ => [])) ∧
      set_voltage_value ⟨1000, 1, 1⟩ REG_POWER_MAX (some (-1000000))
          (fun _ => []) =
        (Except.ok (), write_block REG_POWER_MAX [0xFF, 0xF0] (fun _ => [])) ∧
      set_current_value ⟨1000, 1, 1⟩ REG_POWER_MAX (some (-25000))
          (fun _ => []) =
        (Except.ok (), write_block REG_POWER_MAX [0xFF, 0xF0] (fun _ => []))) :=
  ⟨by decide, by decide, by decide,
    negative_write_saturates_amended (-32) (-1000000) (-25000) ⟨1000, 1, 1⟩
      REG_POWER_MAX (fun _ => []) (by decide) (by decide) (by decide)
      (by decide) (by decide) (by decide)⟩

end LTC2946
